import Mathlib

/-!
Verification of the allmediasync change-synchronization and notification-routing
engine. The definitions below are a shallow embedding of the TypeScript source:

  * `src/lib/dropbox.ts` — `filterNewFiles`, `isInWatchedFolder`,
    `getDropboxChannelMapping`, `getChannelForPath`, `getCursor`, `setCursor`;
  * `src/api/webhooks/dropbox.ts` — `processDropboxChanges` (the sync loop and
    the per-file notification loop);
  * `src/api/slack/commands.ts` — `handleTaskStatusUpdated` (the
    status-transition filter and the space-to-channel resolution) and
    `getChannelMapping`.

JavaScript string primitives (`toLowerCase`, `startsWith`, `split`, `trim`,
`lastIndexOf`, truthiness of strings under `||` and `if`) are modelled
explicitly; environment variables are passed as `Option String` parameters.
-/

namespace AMS

/-- JS `String.prototype.toLowerCase` restricted to ASCII, per character. -/
def charToLower (c : Char) : Char :=
  if 'A' ≤ c ∧ c ≤ 'Z' then Char.ofNat (c.toNat + 32) else c

/-- JS `toLowerCase` on whole strings (ASCII range). -/
def toLower (s : String) : String :=
  String.mk (s.data.map charToLower)

/-- Boolean list-prefix test (structural, decidable equality on elements). -/
def listIsPre {α : Type} [DecidableEq α] : List α → List α → Bool
  | [], _ => true
  | _ :: _, [] => false
  | a :: as, b :: bs => if a = b then listIsPre as bs else false

/-- JS `s.startsWith(pre)`. -/
def strStartsWith (s pre : String) : Bool :=
  listIsPre pre.data s.data

/-- Split a character list at every occurrence of `c` (JS `split` semantics:
`"".split(c)` is `[""]`, a trailing separator yields a trailing `""`). -/
def splitOnChar (c : Char) : List Char → List (List Char)
  | [] => [[]]
  | ch :: rest =>
    let r := splitOnChar c rest
    if ch = c then [] :: r
    else
      match r with
      | [] => [[ch]]
      | g :: gs => (ch :: g) :: gs

/-- JS `s.split(c)` for a one-character separator. -/
def jsSplit (s : String) (c : Char) : List String :=
  (splitOnChar c s.data).map String.mk

/-- ASCII whitespace, the characters JS `trim` removes that occur in configs. -/
def isWsChar (c : Char) : Bool :=
  c = ' ' ∨ c = '\t' ∨ c = '\n' ∨ c = '\r'

/-- JS `s.trim()`. -/
def jsTrim (s : String) : String :=
  String.mk (((s.data.dropWhile isWsChar).reverse.dropWhile isWsChar).reverse)

/-- Index of the last occurrence of `c` (JS `lastIndexOf`, `none` for `-1`). -/
def lastIdxOf (l : List Char) (c : Char) : Option Nat :=
  match l with
  | [] => none
  | ch :: rest =>
    match lastIdxOf rest c with
    | some i => some (i + 1)
    | none => if ch = c then some 0 else none

/-- JS `a || b` for a possibly-absent string `a` (empty string is falsy). -/
def jsOrElse (a : Option String) (b : String) : String :=
  match a with
  | some s => if s = "" then b else s
  | none => b

/-- JS `a || b` where both sides are possibly-absent strings. -/
def jsOrOpt (a b : Option String) : Option String :=
  match a with
  | some s => if s = "" then b else some s
  | none => b

/-! ## Data model (src/lib/types.ts) -/

/-- `DropboxFileMetadata` from `src/lib/types.ts` (the `'.tag': 'file'` case). -/
structure DropboxFileMetadata where
  name : String
  path_display : String
  path_lower : String
  id : String
  client_modified : String
  server_modified : String
  size : Nat
  content_hash : String
deriving DecidableEq

/-- `DropboxMetadata`: tagged union of file and folder metadata. -/
inductive DropboxMetadata where
  | file (f : DropboxFileMetadata)
  | folder (name path_display path_lower id : String)
deriving DecidableEq

/-! ## src/lib/dropbox.ts -/

/-- `filterNewFiles` (dropbox.ts:128-132): keep exactly the entries tagged
`'file'`. -/
def filterNewFiles (entries : List DropboxMetadata) : List DropboxFileMetadata :=
  entries.filterMap fun e =>
    match e with
    | .file f => some f
    | .folder _ _ _ _ => none

/-- `isInWatchedFolder` (dropbox.ts:137-144): the lowercased path starts with
some lowercased configured folder. -/
def isInWatchedFolder (filePath : String) (watchedFolders : List String) : Bool :=
  let normalizedPath := toLower filePath
  watchedFolders.any fun folder => strStartsWith normalizedPath (toLower folder)

/-- JS record assignment `m[k] = v`: update in place if the key exists,
otherwise append (string-keyed JS objects keep first-insertion order). -/
def recordInsert (m : List (String × String)) (k v : String) : List (String × String) :=
  match m with
  | [] => [(k, v)]
  | (k2, v2) :: rest =>
    if k2 = k then (k2, v) :: rest
    else (k2, v2) :: recordInsert rest k v

/-- JS record read `m[k]`: the value at the key, if present. -/
def lookupRecord : List (String × String) → String → Option String
  | [], _ => none
  | (k, v) :: rest, key => if k = key then some v else lookupRecord rest key

/-- The body of the parsing loop of `getDropboxChannelMapping`
(dropbox.ts:170-179) for one comma-separated pair: split at the LAST colon
(`lastIndexOf(':')`, index required `> 0`), trim both sides, require both
non-empty, and lowercase the folder key. -/
def parseMappingPair (pair : String) : Option (String × String) :=
  match lastIdxOf pair.data ':' with
  | some ci =>
    if 0 < ci then
      let folder := jsTrim (String.mk (pair.data.take ci))
      let channel := jsTrim (String.mk (pair.data.drop (ci + 1)))
      if folder ≠ "" ∧ channel ≠ "" then some (toLower folder, channel) else none
    else none
  | none => none

/-- One iteration of the `for (const pair of pairs)` loop of
`getDropboxChannelMapping`: `mapping[folder.toLowerCase()] = channel`. -/
def addMappingPair (m : List (String × String)) (pair : String) : List (String × String) :=
  match parseMappingPair pair with
  | some (k, c) => recordInsert m k c
  | none => m

/-- `getDropboxChannelMapping` (dropbox.ts:164-183), with the
`DROPBOX_CHANNEL_MAPPING` environment variable passed in (`if (mappingStr)`
treats an unset or empty variable as absent). -/
def getDropboxChannelMapping (cfg : Option String) : List (String × String) :=
  match cfg with
  | none => []
  | some s => if s = "" then [] else (jsSplit s ',').foldl addMappingPair []

/-- One iteration of the best-match loop of `getChannelForPath`
(dropbox.ts:196-201): take the entry when the normalized path starts with its
key and the key is strictly longer than the best so far. -/
def channelStep (np : String) (best kv : String × String) : String × String :=
  if strStartsWith np kv.1 = true ∧ best.1.length < kv.1.length then kv else best

/-- The matching core of `getChannelForPath` (dropbox.ts:188-204), with the
parsed mapping and the already-computed default channel as parameters. -/
def getChannelForPathM (mapping : List (String × String)) (dflt : String)
    (filePath : String) : String :=
  let np := toLower filePath
  (mapping.foldl (channelStep np) ("", dflt)).2

/-- `getChannelForPath` (dropbox.ts:188-204): resolve against the mapping
parsed from `DROPBOX_CHANNEL_MAPPING`, defaulting to
`SLACK_NOTIFICATION_CHANNEL || 'all-media'`. -/
def getChannelForPath (cfgMapping envChannel : Option String) (filePath : String) : String :=
  getChannelForPathM (getDropboxChannelMapping cfgMapping)
    (jsOrElse envChannel "all-media") filePath

/-! ## Cursor store (dropbox.ts:206-217) -/

/-- The cursor store: the module-level `storedCursor` variable together with
the `DROPBOX_CURSOR` environment variable. -/
structure CursorStore where
  storedCursor : Option String
  envCursor : Option String
deriving DecidableEq

/-- `getCursor` (dropbox.ts:209-212): `storedCursor || process.env.DROPBOX_CURSOR || null`. -/
def getCursor (s : CursorStore) : Option String :=
  jsOrOpt s.storedCursor (jsOrOpt s.envCursor none)

/-- `setCursor` (dropbox.ts:214-217): `storedCursor = cursor`. -/
def setCursor (s : CursorStore) (c : String) : CursorStore :=
  { s with storedCursor := some c }

/-! ## Sync loop (src/api/webhooks/dropbox.ts:74-116) -/

/-- One result of `getLatestChanges`: a page of entries, the next cursor, and
the `has_more` flag. -/
structure FetchPage where
  entries : List DropboxMetadata
  cursor : String
  hasMore : Bool
deriving DecidableEq

/-- One invocation of `getLatestChanges` in a run: either it returns a page or
it throws. -/
inductive FetchResult where
  | ok (page : FetchPage)
  | err
deriving DecidableEq

/-- The per-page filter step of the sync loop (webhooks/dropbox.ts:91-93):
apply the watched-folder allow-list only when it is non-empty. -/
def relevantFilesOf (watched : List String) (files : List DropboxFileMetadata) :
    List DropboxFileMetadata :=
  if 0 < watched.length then
    files.filter fun f => isInWatchedFolder f.path_display watched
  else files

/-- Outcome of the `while (hasMore)` loop: the accumulated files and the last
cursor seen, or an aborted loop when a fetch threw. -/
inductive LoopOut where
  | finished (newFiles : List DropboxFileMetadata) (currentCursor : Option String)
  | errored
deriving DecidableEq

/-- The `while (hasMore)` loop of `processDropboxChanges`
(webhooks/dropbox.ts:84-99), driven by the trace of successive fetch results.
A throwing fetch aborts the whole loop (the exception propagates); an
exhausted trace stands for `hasMore` having become false. -/
def syncLoop (watched : List String) :
    List FetchResult → List DropboxFileMetadata → Option String → LoopOut
  | [], acc, cur => .finished acc cur
  | .err :: _, _, _ => .errored
  | .ok page :: rest, acc, _ =>
    let files := filterNewFiles page.entries
    let acc2 := acc ++ relevantFilesOf watched files
    if page.hasMore then syncLoop watched rest acc2 (some page.cursor)
    else .finished acc2 (some page.cursor)

/-- The per-file notification loop (webhooks/dropbox.ts:109-115): each file is
attempted in order; a failing attempt is caught and logged, so iteration
continues unconditionally. `ok f` tells whether the attempt for `f` succeeds. -/
def notifyLoop (ok : DropboxFileMetadata → Bool) :
    List DropboxFileMetadata → List (DropboxFileMetadata × Bool)
  | [] => []
  | f :: rest => (f, ok f) :: notifyLoop ok rest

/-- The observable outcome of one `processDropboxChanges` run. -/
structure RunResult where
  finalStore : CursorStore
  notified : List DropboxFileMetadata
  attempts : List (DropboxFileMetadata × Bool)
  fetchError : Bool
deriving DecidableEq

/-- `processDropboxChanges` (webhooks/dropbox.ts:74-116): read the cursor, run
the page loop, save the final cursor only when the loop finished and the
cursor is truthy (`if (currentCursor)`), then attempt one notification per
accumulated file. A fetch error propagates out before the save and before any
notification. -/
def processDropboxChanges (fetches : List FetchResult) (watched : List String)
    (store : CursorStore) (ok : DropboxFileMetadata → Bool) : RunResult :=
  match syncLoop watched fetches [] (getCursor store) with
  | .errored => { finalStore := store, notified := [], attempts := [], fetchError := true }
  | .finished newFiles cur =>
    let store2 :=
      match cur with
      | some c => if c = "" then store else setCursor store c
      | none => store
    { finalStore := store2, notified := newFiles,
      attempts := notifyLoop ok newFiles, fetchError := false }

/-! ## ClickUp status transitions (src/api/slack/commands.ts:316-368) -/

/-- A ClickUp status value: display name and status type (`'closed'` is the
terminal type). -/
structure StatusValue where
  status : String
  type : String
deriving DecidableEq

/-- A ClickUp webhook history item (only the fields the handler reads). -/
structure HistoryItem where
  field : String
  before : Option StatusValue
  after : Option StatusValue
deriving DecidableEq

/-- `payload.history_items.find(item => item.field === 'status')`
(commands.ts:318). -/
def findStatusChange (items : List HistoryItem) : Option HistoryItem :=
  items.find? fun item => item.field = "status"

/-- The emission decision of `handleTaskStatusUpdated` (commands.ts:316-347):
notify exactly when a `'status'` history item exists, has an `after`, the
`after` type is `'closed'`, and the `before` is absent or of a type other than
`'closed'`. -/
def emitsCompletion (items : List HistoryItem) : Bool :=
  match findStatusChange items with
  | none => false
  | some sc =>
    match sc.after with
    | none => false
    | some a =>
      let isNowComplete : Bool := a.type = "closed"
      let wasNotComplete : Bool :=
        match sc.before with
        | none => true
        | some b => b.type ≠ "closed"
      isNowComplete && wasNotComplete

/-- Number of completion notifications `handleTaskStatusUpdated` posts for one
payload (it calls `notifyTaskCompleted` at most once). -/
def completionNotifications (items : List HistoryItem) : Nat :=
  if emitsCompletion items then 1 else 0

/-- One iteration of the parsing loop of `getChannelMapping`
(commands.ts:358-364): `const [space, channel] = pair.split(':')`, keep when
both are truthy, insert trimmed with NO case normalization. -/
def addTaskMappingPair (m : List (String × String)) (pair : String) :
    List (String × String) :=
  match jsSplit pair ':' with
  | space :: channel :: _ =>
    if space ≠ "" ∧ channel ≠ "" then recordInsert m (jsTrim space) (jsTrim channel)
    else m
  | _ => m

/-- `getChannelMapping` (commands.ts:353-368), with the `CHANNEL_MAPPING`
environment variable passed in. -/
def getChannelMapping (cfg : Option String) : List (String × String) :=
  match cfg with
  | none => []
  | some s => if s = "" then [] else (jsSplit s ',').foldl addTaskMappingPair []

/-- The channel resolution of `handleTaskStatusUpdated` (commands.ts:337-338):
`channelMapping[task.space.name] || process.env.SLACK_NOTIFICATION_CHANNEL ||
'all-media'` — a case-sensitive exact-key record read. -/
def resolveTaskChannel (cfg envChannel : Option String) (spaceName : String) : String :=
  match lookupRecord (getChannelMapping cfg) spaceName with
  | some c => if c = "" then jsOrElse envChannel "all-media" else c
  | none => jsOrElse envChannel "all-media"

/-! ## Helper lemmas -/

theorem listIsPre_iff {α : Type} [DecidableEq α] (l1 l2 : List α) :
    listIsPre l1 l2 = true ↔ ∃ t, l2 = l1 ++ t := by
  induction l1 generalizing l2 with
  | nil => simp [listIsPre]
  | cons a as ih =>
    cases l2 with
    | nil =>
      constructor
      · intro h; simp [listIsPre] at h
      · rintro ⟨t, ht⟩; simp at ht
    | cons b bs =>
      constructor
      · intro h
        simp only [listIsPre] at h
        by_cases hab : a = b
        · subst hab
          rw [if_pos rfl] at h
          obtain ⟨t, ht⟩ := (ih bs).mp h
          exact ⟨t, by rw [ht]; rfl⟩
        · rw [if_neg hab] at h
          exact absurd h (by simp)
      · rintro ⟨t, ht⟩
        injection ht with h1 h2
        subst h1
        simp only [listIsPre, if_pos rfl]
        exact (ih bs).mpr ⟨t, h2⟩

theorem strStartsWith_iff (s pre : String) :
    strStartsWith s pre = true ↔ ∃ t, s.data = pre.data ++ t :=
  listIsPre_iff pre.data s.data

theorem string_eq_iff_data (s t : String) : s = t ↔ s.data = t.data := by
  cases s with
  | mk d1 =>
    cases t with
    | mk d2 =>
      constructor
      · intro h; injection h
      · intro h; rw [show d1 = d2 from h]

theorem string_ne_empty_iff (s : String) : s ≠ "" ↔ s.data ≠ [] := by
  have he : ("" : String).data = [] := rfl
  constructor
  · intro h hd
    exact h ((string_eq_iff_data s "").mpr (by rw [hd, he]))
  · intro h hs
    exact h (by rw [(string_eq_iff_data s "").mp hs, he])

theorem string_length_data (s : String) : s.length = s.data.length := rfl

theorem toLower_data (s : String) : (toLower s).data = s.data.map charToLower := rfl

theorem toLower_ne_empty (s : String) (h : s ≠ "") : toLower s ≠ "" := by
  rw [string_ne_empty_iff] at h ⊢
  rw [toLower_data]
  simpa using h

/-- Two prefixes of the same string with the same length are equal. -/
theorem matchingKey_eq_of_length_eq (np k k2 : String)
    (h1 : strStartsWith np k = true) (h2 : strStartsWith np k2 = true)
    (hl : k.length = k2.length) : k = k2 := by
  rw [strStartsWith_iff] at h1 h2
  obtain ⟨t1, ht1⟩ := h1
  obtain ⟨t2, ht2⟩ := h2
  have happ : k.data ++ t1 = k2.data ++ t2 := by rw [← ht1, ← ht2]
  have hd : k.data = k2.data := List.append_inj_left happ hl
  exact (string_eq_iff_data k k2).mpr hd

theorem recordInsert_keys (m : List (String × String)) (k v : String) :
    (recordInsert m k v).map Prod.fst =
      if k ∈ m.map Prod.fst then m.map Prod.fst else m.map Prod.fst ++ [k] := by
  induction m with
  | nil => simp [recordInsert]
  | cons p rest ih =>
    obtain ⟨k2, v2⟩ := p
    by_cases hk : k2 = k
    · subst hk
      simp [recordInsert]
    · simp only [recordInsert, if_neg hk, List.map_cons, ih]
      by_cases hmem : k ∈ rest.map Prod.fst
      · simp [hmem, Ne.symm hk]
      · simp [hmem, Ne.symm hk]

theorem recordInsert_nodup (m : List (String × String)) (k v : String)
    (h : (m.map Prod.fst).Nodup) : ((recordInsert m k v).map Prod.fst).Nodup := by
  rw [recordInsert_keys]
  by_cases hmem : k ∈ m.map Prod.fst
  · simpa [hmem] using h
  · simp only [if_neg hmem]
    rw [List.nodup_append]
    refine ⟨h, List.nodup_singleton k, ?_⟩
    intro a ha hb
    rw [List.mem_singleton] at hb
    subst hb
    exact hmem ha

theorem recordInsert_mem (m : List (String × String)) (k v : String)
    (p : String × String) (h : p ∈ recordInsert m k v) : p.1 = k ∨ p ∈ m := by
  induction m with
  | nil =>
    simp only [recordInsert, List.mem_singleton] at h
    left; rw [h]
  | cons q rest ih =>
    obtain ⟨k2, v2⟩ := q
    by_cases hk : k2 = k
    · subst hk
      simp only [recordInsert, if_pos rfl] at h
      rcases List.mem_cons.mp h with h | h
      · left; rw [h]
      · right; exact List.mem_cons_of_mem _ h
    · simp only [recordInsert, if_neg hk] at h
      rcases List.mem_cons.mp h with h | h
      · right; rw [h]; exact List.mem_cons_self _ _
      · rcases ih h with h2 | h2
        · left; exact h2
        · right; exact List.mem_cons_of_mem _ h2

theorem assoc_unique (m : List (String × String)) (k v v2 : String)
    (hnd : (m.map Prod.fst).Nodup) (h1 : (k, v) ∈ m) (h2 : (k, v2) ∈ m) : v = v2 := by
  induction m with
  | nil => simp at h1
  | cons p rest ih =>
    simp only [List.map_cons, List.nodup_cons] at hnd
    rcases List.mem_cons.mp h1 with he1 | ht1 <;>
      rcases List.mem_cons.mp h2 with he2 | ht2
    · exact congrArg Prod.snd (he1.trans he2.symm)
    · exfalso
      apply hnd.1
      rw [← he1]
      exact List.mem_map.mpr ⟨(k, v2), ht2, rfl⟩
    · exfalso
      apply hnd.1
      rw [← he2]
      exact List.mem_map.mpr ⟨(k, v), ht1, rfl⟩
    · exact ih hnd.2 ht1 ht2

theorem foldl_channelStep_cases (np : String) (l : List (String × String))
    (b : String × String) :
    l.foldl (channelStep np) b = b ∨
      ∃ kv, kv ∈ l ∧ l.foldl (channelStep np) b = kv ∧ strStartsWith np kv.1 = true := by
  induction l generalizing b with
  | nil => left; rfl
  | cons q rest ih =>
    simp only [List.foldl_cons]
    rcases ih (channelStep np b q) with h | ⟨kv, hmem, heq, hpre⟩
    · rw [h]
      unfold channelStep
      by_cases hc : strStartsWith np q.1 = true ∧ b.1.length < q.1.length
      · right
        exact ⟨q, List.mem_cons_self _ _, if_pos hc, hc.1⟩
      · left; exact if_neg hc
    · right
      exact ⟨kv, List.mem_cons_of_mem _ hmem, heq, hpre⟩

theorem foldl_channelStep_len (np : String) (l : List (String × String))
    (b : String × String) :
    b.1.length ≤ (l.foldl (channelStep np) b).1.length := by
  induction l generalizing b with
  | nil => exact Nat.le_refl _
  | cons q rest ih =>
    simp only [List.foldl_cons]
    refine Nat.le_trans ?_ (ih (channelStep np b q))
    unfold channelStep
    by_cases hc : strStartsWith np q.1 = true ∧ b.1.length < q.1.length
    · rw [if_pos hc]; exact Nat.le_of_lt hc.2
    · rw [if_neg hc]

theorem foldl_channelStep_maxmatch (np : String) (l : List (String × String))
    (b kv : String × String) (hmem : kv ∈ l) (hpre : strStartsWith np kv.1 = true) :
    kv.1.length ≤ (l.foldl (channelStep np) b).1.length := by
  induction l generalizing b with
  | nil => simp at hmem
  | cons q rest ih =>
    simp only [List.foldl_cons]
    rcases List.mem_cons.mp hmem with he | ht
    · subst he
      refine Nat.le_trans ?_ (foldl_channelStep_len np rest (channelStep np b kv))
      unfold channelStep
      by_cases hc : strStartsWith np kv.1 = true ∧ b.1.length < kv.1.length
      · rw [if_pos hc]
      · rw [if_neg hc]
        rcases Nat.lt_or_ge b.1.length kv.1.length with hlt | hge
        · exact absurd ⟨hpre, hlt⟩ hc
        · exact hge
    · exact ih (channelStep np b q) ht

theorem foldl_channelStep_nomatch (np : String) (l : List (String × String))
    (b : String × String) (h : ∀ kv ∈ l, strStartsWith np kv.1 = false) :
    l.foldl (channelStep np) b = b := by
  induction l generalizing b with
  | nil => rfl
  | cons q rest ih =>
    simp only [List.foldl_cons]
    have hq : strStartsWith np q.1 = false := h q (List.mem_cons_self _ _)
    have hstep : channelStep np b q = b := by
      unfold channelStep
      rw [if_neg]
      intro hc
      rw [hq] at hc
      exact Bool.false_ne_true hc.1
    rw [hstep]
    exact ih b fun kv hkv => h kv (List.mem_cons_of_mem _ hkv)

/-- Keys produced by `parseMappingPair` are never empty (the source requires a
non-empty trimmed folder before inserting, and lowercasing preserves length). -/
theorem parseMappingPair_key_ne (p k c : String)
    (h : parseMappingPair p = some (k, c)) : k ≠ "" := by
  cases hli : lastIdxOf p.data ':' with
  | none =>
    simp only [parseMappingPair, hli] at h
    exact Option.noConfusion h
  | some ci =>
    simp only [parseMappingPair, hli] at h
    by_cases hpos : 0 < ci
    · rw [if_pos hpos] at h
      by_cases hne : jsTrim (String.mk (p.data.take ci)) ≠ "" ∧
          jsTrim (String.mk (p.data.drop (ci + 1))) ≠ ""
      · rw [if_pos hne] at h
        injection h with h2
        injection h2 with hk hc
        rw [← hk]
        exact toLower_ne_empty _ hne.1
      · rw [if_neg hne] at h
        exact absurd h (by simp)
    · rw [if_neg hpos] at h
      exact absurd h (by simp)

/-- Well-formedness invariant of the parsed Dropbox mapping fold: distinct,
non-empty keys. -/
theorem foldl_addMappingPair_wf (pairs : List String) (m : List (String × String))
    (hnd : (m.map Prod.fst).Nodup) (hne : ∀ p ∈ m, p.1 ≠ "") :
    ((pairs.foldl addMappingPair m).map Prod.fst).Nodup ∧
      ∀ p ∈ pairs.foldl addMappingPair m, p.1 ≠ "" := by
  induction pairs generalizing m with
  | nil => exact ⟨hnd, hne⟩
  | cons q rest ih =>
    simp only [List.foldl_cons]
    apply ih
    · unfold addMappingPair
      rcases hp : parseMappingPair q with _ | ⟨k, c⟩
      · exact hnd
      · exact recordInsert_nodup m k c hnd
    · unfold addMappingPair
      rcases hp : parseMappingPair q with _ | ⟨k, c⟩
      · exact hne
      · intro p hpm
        rcases recordInsert_mem m k c p hpm with h1 | h1
        · rw [h1]
          exact parseMappingPair_key_ne q k c hp
        · exact hne p h1

theorem getDropboxChannelMapping_wf (cfg : Option String) :
    (((getDropboxChannelMapping cfg).map Prod.fst).Nodup) ∧
      ∀ p ∈ getDropboxChannelMapping cfg, p.1 ≠ "" := by
  rcases cfg with _ | s
  · simp [getDropboxChannelMapping]
  · simp only [getDropboxChannelMapping]
    by_cases hs : s = ""
    · simp [hs]
    · rw [if_neg hs]
      exact foldl_addMappingPair_wf _ [] List.nodup_nil (by simp)

/-- Longest-match characterization of the resolver core: with distinct keys, a
matching key of maximal length and its channel win the fold. -/
theorem getChannelForPathM_longest (mapping : List (String × String))
    (dflt path k v : String) (hnd : (mapping.map Prod.fst).Nodup)
    (hmem : (k, v) ∈ mapping) (hk : strStartsWith (toLower path) k = true)
    (hne : k ≠ "")
    (hmax : ∀ p ∈ mapping, strStartsWith (toLower path) p.1 = true → p.1.length ≤ k.length) :
    getChannelForPathM mapping dflt path = v := by
  simp only [getChannelForPathM]
  have hge := foldl_channelStep_maxmatch (toLower path) mapping ("", dflt) (k, v) hmem hk
  rcases foldl_channelStep_cases (toLower path) mapping ("", dflt) with hb | ⟨kv, hkvmem, heq, hkvpre⟩
  · exfalso
    rw [hb] at hge
    have hk0 : k.data.length = 0 := Nat.le_zero.mp hge
    exact (string_ne_empty_iff k).mp hne (List.length_eq_zero.mp hk0)
  · rw [heq]
    have hle := hmax kv hkvmem hkvpre
    rw [heq] at hge
    have hkeq : k = kv.1 :=
      matchingKey_eq_of_length_eq (toLower path) k kv.1 hk hkvpre (Nat.le_antisymm hge hle)
    have : (k, kv.2) ∈ mapping := by
      rw [hkeq]
      exact hkvmem
    exact (assoc_unique mapping k v kv.2 hnd hmem this).symm

/-- Default-channel characterization of the resolver core: with no matching
key, the fold returns the default. -/
theorem getChannelForPathM_default (mapping : List (String × String))
    (dflt path : String)
    (h : ∀ p ∈ mapping, strStartsWith (toLower path) p.1 = false) :
    getChannelForPathM mapping dflt path = dflt := by
  simp only [getChannelForPathM]
  rw [foldl_channelStep_nomatch (toLower path) mapping ("", dflt) h]

/-! ## Claim theorems -/

/-- Claim C4: for every file path and every configured prefix-to-channel rule
set, `getChannelForPath` resolves to the channel of the rule whose key is the
longest case-insensitive prefix of the path, and to the configured default
channel when no rule's key is a prefix; in particular, with rules
`/clients/acme → acme-chan`, `/clients → general-chan` and default
`all-media`, path `/clients/acme/invoice.pdf` resolves to `acme-chan`,
`/clients/other` to `general-chan`, and `/unmatched` to `all-media`. -/
theorem c4_route_resolver_longest_match :
    (∀ (cfg envC : Option String) (path k v : String),
        (k, v) ∈ getDropboxChannelMapping cfg →
        strStartsWith (toLower path) k = true →
        (∀ p ∈ getDropboxChannelMapping cfg,
          strStartsWith (toLower path) p.1 = true → p.1.length ≤ k.length) →
        getChannelForPath cfg envC path = v)
    ∧ (∀ (cfg envC : Option String) (path : String),
        (∀ p ∈ getDropboxChannelMapping cfg,
          strStartsWith (toLower path) p.1 = false) →
        getChannelForPath cfg envC path = jsOrElse envC "all-media")
    ∧ getChannelForPath (some "/clients/acme:acme-chan,/clients:general-chan") none
        "/clients/acme/invoice.pdf" = "acme-chan"
    ∧ getChannelForPath (some "/clients/acme:acme-chan,/clients:general-chan") none
        "/clients/other" = "general-chan"
    ∧ getChannelForPath (some "/clients/acme:acme-chan,/clients:general-chan") none
        "/unmatched" = "all-media" := by
  refine ⟨?_, ?_, by decide, by decide, by decide⟩
  · intro cfg envC path k v hmem hk hmax
    have hwf := getDropboxChannelMapping_wf cfg
    exact getChannelForPathM_longest _ _ path k v hwf.1 hmem hk
      (hwf.2 (k, v) hmem) hmax
  · intro cfg envC path h
    exact getChannelForPathM_default _ _ path h

/-- Witness for C4: the general longest-match clause applied to the concrete
one-rule configuration `/clients → general-chan` and path `/clients/x`. -/
theorem c4_route_resolver_longest_match_witness :
    getChannelForPath (some "/clients:general-chan") none "/clients/x" = "general-chan" :=
  c4_route_resolver_longest_match.1 (some "/clients:general-chan") none "/clients/x"
    "/clients" "general-chan" (by decide) (by decide) (by decide)

/-- Claim C9 counterexample: with the configuration `/a:chan1,/A:chan2`, whose
two rules have equal keys after case normalization, `getChannelForPath`
resolves `/a/x` to the channel of the SECOND rule (`chan2`), not to the first
rule's `chan1` as the claim states — the later JS record assignment
overwrites the earlier one. -/
theorem c9_first_wins_counterexample :
    getChannelForPath (some "/a:chan1,/A:chan2") none "/a/x" = "chan2" ∧
      ("chan2" : String) ≠ "chan1" :=
  ⟨by decide, by decide⟩

/-- Claim C9 (amended): for every two-rule configuration whose rules parse to
the same case-normalized key, resolving a path matched by that key selects the
channel of the rule that appears LAST in configuration order. -/
theorem c9_duplicate_key_last_wins (cfg p1 p2 k c1 c2 path : String)
    (envC : Option String) (hcfg : cfg ≠ "")
    (hsplit : jsSplit cfg ',' = [p1, p2])
    (h1 : parseMappingPair p1 = some (k, c1))
    (h2 : parseMappingPair p2 = some (k, c2))
    (hmatch : strStartsWith (toLower path) k = true) :
    getChannelForPath (some cfg) envC path = c2 := by
  have hkne := parseMappingPair_key_ne p1 k c1 h1
  have hm : getDropboxChannelMapping (some cfg) = [(k, c2)] := by
    simp only [getDropboxChannelMapping, if_neg hcfg, hsplit, List.foldl_cons,
      List.foldl_nil, addMappingPair, h1, h2, recordInsert, if_pos rfl, if_true]
  have hpos : ("" : String).length < k.length := by
    have hd : k.data ≠ [] := (string_ne_empty_iff k).mp hkne
    exact List.length_pos.mpr hd
  simp only [getChannelForPath, hm, getChannelForPathM, List.foldl_cons,
    List.foldl_nil, channelStep]
  rw [if_pos ⟨hmatch, hpos⟩]

/-- Witness for C9 (amended): the concrete configuration `/a:chan1,/A:chan2`
and path `/a/x` resolve to `chan2`. -/
theorem c9_duplicate_key_last_wins_witness :
    getChannelForPath (some "/a:chan1,/A:chan2") none "/a/x" = "chan2" :=
  c9_duplicate_key_last_wins "/a:chan1,/A:chan2" "/a:chan1" "/A:chan2" "/a"
    "chan1" "chan2" "/a/x" none (by decide) (by decide) (by decide) (by decide)
    (by decide)

/-- Claim C8: for every entry and every configured watched-folder allow-list,
a non-empty list keeps exactly the files whose path starts case-insensitively
with some configured prefix (`isInWatchedFolder`), and an empty list keeps
every file. -/
theorem c8_watched_folder_allow_list :
    (∀ (watched : List String) (files : List DropboxFileMetadata)
        (f : DropboxFileMetadata), watched ≠ [] →
        (f ∈ relevantFilesOf watched files ↔
          f ∈ files ∧ isInWatchedFolder f.path_display watched = true))
    ∧ (∀ (watched : List String) (p : String),
        isInWatchedFolder p watched = true ↔
          ∃ folder ∈ watched, strStartsWith (toLower p) (toLower folder) = true)
    ∧ (∀ files : List DropboxFileMetadata, relevantFilesOf [] files = files) := by
  refine ⟨?_, ?_, ?_⟩
  · intro watched files f hne
    simp only [relevantFilesOf, if_pos (List.length_pos.mpr hne)]
    exact List.mem_filter
  · intro watched p
    simp only [isInWatchedFolder, List.any_eq_true]
  · intro files
    simp [relevantFilesOf]

/-- A sample file used to instantiate the C8 theorem. -/
def lstFile : DropboxFileMetadata :=
  { name := "cut-01.mov", path_display := "/clients/lst/cut-01.mov",
    path_lower := "/clients/lst/cut-01.mov", id := "id:lst1",
    client_modified := "2024-02-02T00:00:00Z",
    server_modified := "2024-02-02T00:00:00Z", size := 7, content_hash := "h1" }

/-- Witness for C8: the allow-list `["/Clients/LST"]` keeps `lstFile`
(case-insensitively) and the characterization holds at that input. -/
theorem c8_watched_folder_allow_list_witness :
    lstFile ∈ relevantFilesOf ["/Clients/LST"] [lstFile] ↔
      lstFile ∈ [lstFile] ∧
        isInWatchedFolder lstFile.path_display ["/Clients/LST"] = true :=
  c8_watched_folder_allow_list.1 ["/Clients/LST"] [lstFile] lstFile (by decide)

/-- The duplicated file of the C1 scenario: same Dropbox id and modification
time reported on two overlapping pages. -/
def dupFile : DropboxFileMetadata :=
  { name := "report.pdf", path_display := "/Clients/Acme/report.pdf",
    path_lower := "/clients/acme/report.pdf", id := "id:123",
    client_modified := "2024-01-01T00:00:00Z",
    server_modified := "2024-01-01T00:00:00Z", size := 1024, content_hash := "abc" }

/-- The C1 scenario run: two pages, each reporting the same file entry. -/
def dupRun : RunResult :=
  processDropboxChanges
    [FetchResult.ok { entries := [DropboxMetadata.file dupFile], cursor := "cursor1", hasMore := true },
     FetchResult.ok { entries := [DropboxMetadata.file dupFile], cursor := "cursor2", hasMore := false }]
    [] { storedCursor := none, envCursor := none } (fun _ => true)

/-- Claim C1 counterexample: a raw change entry with identical
(`id`, `server_modified`) reported on two overlapping pages yields TWO
notification candidates and two dispatch attempts, not exactly one —
`processDropboxChanges` performs no deduplication. -/
theorem c1_dedup_counterexample :
    dupRun.notified = [dupFile, dupFile] ∧
      dupRun.notified.length ≠ 1 ∧ dupRun.attempts.length = 2 := by
  decide

/-- Claim C1 (amended): the candidate list of a two-page run is the plain
concatenation of each page's filtered entries — duplicates across overlapping
pages are kept, one candidate (and one dispatch attempt) per occurrence. -/
theorem c1_no_dedup_per_occurrence (p1 p2 : FetchPage) (watched : List String)
    (store : CursorStore) (ok : DropboxFileMetadata → Bool)
    (h1 : p1.hasMore = true) (h2 : p2.hasMore = false) :
    (processDropboxChanges [FetchResult.ok p1, FetchResult.ok p2]
        watched store ok).notified =
      relevantFilesOf watched (filterNewFiles p1.entries) ++
        relevantFilesOf watched (filterNewFiles p2.entries) := by
  simp [processDropboxChanges, syncLoop, h1, h2]

/-- Witness for C1 (amended): the concrete duplicated-pages run. -/
theorem c1_no_dedup_per_occurrence_witness :
    (processDropboxChanges
        [FetchResult.ok { entries := [DropboxMetadata.file dupFile], cursor := "cursor1", hasMore := true },
         FetchResult.ok { entries := [DropboxMetadata.file dupFile], cursor := "cursor2", hasMore := false }]
        [] { storedCursor := none, envCursor := none } (fun _ => true)).notified =
      relevantFilesOf [] (filterNewFiles [DropboxMetadata.file dupFile]) ++
        relevantFilesOf [] (filterNewFiles [DropboxMetadata.file dupFile]) :=
  c1_no_dedup_per_occurrence _ _ [] _ _ (by decide) (by decide)

/-- A fetch error anywhere in the page sequence makes the whole loop abort
with `LoopOut.errored`, whatever was accumulated so far. -/
theorem syncLoop_err_of_trace (watched : List String) (oks : List FetchPage)
    (rest : List FetchResult) (hall : ∀ p ∈ oks, p.hasMore = true) :
    ∀ (acc : List DropboxFileMetadata) (cur : Option String),
      syncLoop watched (oks.map FetchResult.ok ++ FetchResult.err :: rest) acc cur =
        LoopOut.errored := by
  induction oks with
  | nil => intro acc cur; rfl
  | cons p ps ih =>
    intro acc cur
    have hp : p.hasMore = true := hall p (List.mem_cons_self _ _)
    simp only [List.map_cons, List.cons_append, syncLoop, hp, if_true]
    exact ih (fun q hq => hall q (List.mem_cons_of_mem _ hq)) _ _

/-- Claim C3: a run whose fetch sequence raises an error on any page leaves
the stored cursor exactly at its pre-run value, and dispatches nothing —
`setCursor` is only reached after the whole page sequence completed without a
fetch error. -/
theorem c3_fetch_error_preserves_cursor (oks : List FetchPage)
    (rest : List FetchResult) (watched : List String) (store : CursorStore)
    (ok : DropboxFileMetadata → Bool) (hall : ∀ p ∈ oks, p.hasMore = true) :
    (processDropboxChanges (oks.map FetchResult.ok ++ FetchResult.err :: rest)
        watched store ok).finalStore = store ∧
      (processDropboxChanges (oks.map FetchResult.ok ++ FetchResult.err :: rest)
          watched store ok).notified = [] := by
  simp [processDropboxChanges, syncLoop_err_of_trace watched oks rest hall]

/-- Witness for C3: a run that fails fetching page 2 (page 1 succeeded with
`hasMore`) keeps the pre-run cursor `pre-cursor`. -/
theorem c3_fetch_error_preserves_cursor_witness :
    (processDropboxChanges
        [FetchResult.ok { entries := [DropboxMetadata.file dupFile], cursor := "page1", hasMore := true },
         FetchResult.err]
        [] { storedCursor := some "pre-cursor", envCursor := none }
        (fun _ => true)).finalStore =
      { storedCursor := some "pre-cursor", envCursor := none } :=
  (c3_fetch_error_preserves_cursor
    [{ entries := [DropboxMetadata.file dupFile], cursor := "page1", hasMore := true }]
    [] [] { storedCursor := some "pre-cursor", envCursor := none } (fun _ => true)
    (by decide)).1

/-- Claim C6 counterexample: saving the empty-string cursor does not round
trip — `getCursor` treats the stored `""` as falsy under JS `||` and falls
through to the (absent) environment cursor. -/
theorem c6_cursor_roundtrip_counterexample :
    getCursor (setCursor { storedCursor := none, envCursor := none } "") ≠
      some "" := by
  decide

/-- Claim C6 (amended): for every NON-EMPTY cursor string C, `getCursor`
immediately after `setCursor C` returns C, from any store state. -/
theorem c6_cursor_roundtrip_nonempty (s : CursorStore) (c : String) (h : c ≠ "") :
    getCursor (setCursor s c) = some c := by
  simp only [getCursor, setCursor, jsOrOpt, if_neg h]

/-- Witness for C6 (amended): a concrete non-empty cursor round trips. -/
theorem c6_cursor_roundtrip_nonempty_witness :
    getCursor (setCursor { storedCursor := none, envCursor := none } "cursor-abc") =
      some "cursor-abc" :=
  c6_cursor_roundtrip_nonempty { storedCursor := none, envCursor := none }
    "cursor-abc" (by decide)

/-- The notification loop attempts every file once, in order. -/
theorem notifyLoop_map_fst (ok : DropboxFileMetadata → Bool)
    (l : List DropboxFileMetadata) : (notifyLoop ok l).map Prod.fst = l := by
  induction l with
  | nil => rfl
  | cons f rest ih => simp [notifyLoop, ih]

/-- Every file of the list gets its attempt recorded by the notification loop. -/
theorem notifyLoop_mem (ok : DropboxFileMetadata → Bool)
    (l : List DropboxFileMetadata) (z : DropboxFileMetadata) (hz : z ∈ l) :
    (z, ok z) ∈ notifyLoop ok l := by
  induction l with
  | nil => simp at hz
  | cons f rest ih =>
    rcases List.mem_cons.mp hz with he | ht
    · subst he; exact List.mem_cons_self _ _
    · exact List.mem_cons_of_mem _ (ih ht)

/-- Claim C7: a dispatch failure for one candidate does not prevent dispatch
attempts for the subsequent candidates: whatever candidate `y` fails, every
candidate of the run's list receives exactly one attempt (the attempt list
projects back to the candidate list), and in particular every candidate after
`y` is attempted; the run's attempt list is exactly the notification loop over
its candidates. -/
theorem c7_dispatch_failure_isolation (ok : DropboxFileMetadata → Bool)
    (xs zs : List DropboxFileMetadata) (y : DropboxFileMetadata)
    (hfail : ok y = false) :
    ((notifyLoop ok (xs ++ y :: zs)).map Prod.fst = xs ++ y :: zs)
    ∧ (∀ z ∈ zs, (z, ok z) ∈ notifyLoop ok (xs ++ y :: zs))
    ∧ (∀ (fetches : List FetchResult) (watched : List String) (store : CursorStore),
        (processDropboxChanges fetches watched store ok).attempts =
          notifyLoop ok (processDropboxChanges fetches watched store ok).notified) := by
  refine ⟨notifyLoop_map_fst ok _, ?_, ?_⟩
  · intro z hz
    exact notifyLoop_mem ok _ z (List.mem_append_right _ (List.mem_cons_of_mem _ hz))
  · intro fetches watched store
    unfold processDropboxChanges
    cases syncLoop watched fetches [] (getCursor store) <;> rfl

/-- Witness for C7: with a dispatcher that fails on everything, both
candidates of a two-candidate list still get their attempts. -/
theorem c7_dispatch_failure_isolation_witness :
    ((notifyLoop (fun _ => false) ([] ++ dupFile :: [lstFile])).map Prod.fst =
        [] ++ dupFile :: [lstFile])
    ∧ (∀ z ∈ [lstFile], (z, (fun (_ : DropboxFileMetadata) => false) z) ∈
        notifyLoop (fun _ => false) ([] ++ dupFile :: [lstFile]))
    ∧ (∀ (fetches : List FetchResult) (watched : List String) (store : CursorStore),
        (processDropboxChanges fetches watched store (fun _ => false)).attempts =
          notifyLoop (fun _ => false)
            (processDropboxChanges fetches watched store (fun _ => false)).notified) :=
  c7_dispatch_failure_isolation (fun _ => false) [] [lstFile] dupFile rfl

/-- Claim C2: for every `taskStatusUpdated` payload whose `status` history
item has both a before and an after status, `handleTaskStatusUpdated` emits a
completion notification exactly when the before type is not `closed` and the
after type is `closed`; in particular open→closed emits exactly one,
closed→closed none, open→in-progress none. -/
theorem c2_status_transition_completion :
    (∀ (items : List HistoryItem) (sc : HistoryItem) (b a : StatusValue),
        findStatusChange items = some sc → sc.before = some b →
        sc.after = some a →
        (completionNotifications items = 1 ↔
          (b.type ≠ "closed" ∧ a.type = "closed")))
    ∧ completionNotifications
        [{ field := "status", before := some { status := "open", type := "open" },
           after := some { status := "closed", type := "closed" } }] = 1
    ∧ completionNotifications
        [{ field := "status", before := some { status := "closed", type := "closed" },
           after := some { status := "closed", type := "closed" } }] = 0
    ∧ completionNotifications
        [{ field := "status", before := some { status := "open", type := "open" },
           after := some { status := "in progress", type := "custom" } }] = 0 := by
  refine ⟨?_, by decide, by decide, by decide⟩
  intro items sc b a hfind hb ha
  simp only [completionNotifications, emitsCompletion, hfind, hb, ha]
  by_cases hat : a.type = "closed" <;> by_cases hbt : b.type = "closed" <;>
    simp [hat, hbt]

/-- Witness for C2: the general clause applied to the concrete open→closed
payload. -/
theorem c2_status_transition_completion_witness :
    completionNotifications
        [{ field := "status", before := some { status := "open", type := "open" },
           after := some { status := "closed", type := "closed" } }] = 1 ↔
      (("open" : String) ≠ "closed" ∧ ("closed" : String) = "closed") :=
  c2_status_transition_completion.1
    [{ field := "status", before := some { status := "open", type := "open" },
       after := some { status := "closed", type := "closed" } }]
    { field := "status", before := some { status := "open", type := "open" },
      after := some { status := "closed", type := "closed" } }
    { status := "open", type := "open" } { status := "closed", type := "closed" }
    (by decide) (by decide) (by decide)

/-- Claim C10: a `status` history item with a null before and a `closed`-type
after emits a completion notification (a missing before is treated as
non-terminal); a payload with no `status` history item, or whose `status` item
has a null after, emits none. -/
theorem c10_null_before_and_missing_items :
    (∀ (items : List HistoryItem) (sc : HistoryItem) (a : StatusValue),
        findStatusChange items = some sc → sc.before = none →
        sc.after = some a → a.type = "closed" →
        completionNotifications items = 1)
    ∧ (∀ items : List HistoryItem,
        (∀ it ∈ items, it.field ≠ "status") → completionNotifications items = 0)
    ∧ (∀ (items : List HistoryItem) (sc : HistoryItem),
        findStatusChange items = some sc → sc.after = none →
        completionNotifications items = 0) := by
  refine ⟨?_, ?_, ?_⟩
  · intro items sc a hfind hb ha hat
    simp [completionNotifications, emitsCompletion, hfind, hb, ha, hat]
  · intro items hnone
    have hfind : findStatusChange items = none := by
      apply List.find?_eq_none.mpr
      intro it hit
      simpa using hnone it hit
    simp [completionNotifications, emitsCompletion, hfind]
  · intro items sc hfind ha
    simp [completionNotifications, emitsCompletion, hfind, ha]

/-- Witness for C10: the null-before, closed-after payload emits exactly one
notification. -/
theorem c10_null_before_and_missing_items_witness :
    completionNotifications
        [{ field := "status", before := none,
           after := some { status := "closed", type := "closed" } }] = 1 :=
  c10_null_before_and_missing_items.1
    [{ field := "status", before := none,
       after := some { status := "closed", type := "closed" } }]
    { field := "status", before := none,
      after := some { status := "closed", type := "closed" } }
    { status := "closed", type := "closed" } (by decide) (by decide) (by decide)
    (by decide)

/-- Claim C5 counterexample: with the mapping `Acme:acme-chan`, a task whose
space is named `acme` resolves to the default channel `all-media`, not to
`acme-chan` — `handleTaskStatusUpdated` looks the space name up
case-sensitively, with no lowercase normalization. -/
theorem c5_case_insensitive_counterexample :
    resolveTaskChannel (some "Acme:acme-chan") none "acme" = "all-media" ∧
      ("all-media" : String) ≠ "acme-chan" :=
  ⟨by decide, by decide⟩

/-- Claim C5 (amended): the destination channel is resolved by CASE-SENSITIVE
exact match of the task's origin space name against the configured rule names
(`lookupRecord` on the parsed mapping), with the configured default channel
used when no rule matches exactly. -/
theorem c5_exact_match_resolution (cfg envC : Option String) (spaceName c : String) :
    (lookupRecord (getChannelMapping cfg) spaceName = some c → c ≠ "" →
      resolveTaskChannel cfg envC spaceName = c)
    ∧ (lookupRecord (getChannelMapping cfg) spaceName = none →
      resolveTaskChannel cfg envC spaceName = jsOrElse envC "all-media") := by
  constructor
  · intro hlk hc
    simp only [resolveTaskChannel, hlk, if_neg hc]
  · intro hlk
    simp only [resolveTaskChannel, hlk]

/-- Witness for C5 (amended): the exactly-matching space name `Acme` resolves
to `acme-chan`. -/
theorem c5_exact_match_resolution_witness :
    resolveTaskChannel (some "Acme:acme-chan") none "Acme" = "acme-chan" :=
  (c5_exact_match_resolution (some "Acme:acme-chan") none "Acme" "acme-chan").1
    (by decide) (by decide)

end AMS
